import Mathlib

/-!
Verification of the pi-gen-action sources (`src/pi-gen-config.ts` and the
`PiGen` class of `src/pi-gen.ts`) against their natural-language
specification.  The TypeScript is embedded shallowly: the filesystem, the
two environment queries (`cut` on `/usr/share/i18n/SUPPORTED`,
`timedatectl list-timezones`) and the subprocess runner enter as explicit
parameters, and fallible calls return `Option`/`Except`.
-/

namespace PiGenAction

/-- Result of a successful `fs.stat`/`fs.statSync` call, as far as the
sources inspect it: whether the path is a directory. -/
structure FileStat where
  isDirectory : Bool
  deriving DecidableEq

/-- One entry of `fs.readdirSync(dir, ...)` with `withFileTypes: true`:
a name together with the `isFile()`/`isDirectory()` type predicates. -/
structure DirEntry where
  name : String
  isFile : Bool
  isDirectory : Bool
  deriving DecidableEq

/-- Modelled from the spec: the fixed enumeration `PiGenStages` is imported
from `./pi-gen-stages`, a file that is not among the sources.  The spec calls
it "a fixed enumerated set of known stage identifiers" and the validation
error message of `validateConfig` fixes the names: `stage[0-5]`.  The string
values of `Object.values(PiGenStages)` are therefore this list. -/
def piGenStages : List String :=
  ["stage0", "stage1", "stage2", "stage3", "stage4", "stage5"]

/-- The `PiGenConfig` interface of `src/pi-gen-config.ts` (lines 7-27), in
declaration order.  Optional properties (`?:` in TypeScript) are `Option`s;
`none` stands for an absent (`undefined`) property. -/
structure PiGenConfig where
  imgName : String
  release : String
  deployCompression : String
  compressionLevel : String
  localeDefault : String
  targetHostname : String
  keyboardKeymap : String
  keyboardLayout : String
  timezoneDefault : String
  firstUserName : String
  firstUserPass : Option String := none
  wpaEssid : Option String := none
  wpaPassword : Option String := none
  wpaCountry : Option String := none
  enableSsh : String
  pubkeySshFirstUser : Option String := none
  pubkeyOnlySsh : String
  stageList : String
  useQcow2 : String
  deriving DecidableEq

/-- The `DEFAULT_CONFIG` constant of `src/pi-gen-config.ts` (lines 29-44). -/
def DEFAULT_CONFIG : PiGenConfig where
  imgName := "test"
  release := "bullseye"
  deployCompression := "zip"
  compressionLevel := "6"
  localeDefault := "en_GB.UTF-8"
  targetHostname := "raspberrypi"
  keyboardKeymap := "gb"
  keyboardLayout := "English (UK)"
  timezoneDefault := "Europe/London"
  firstUserName := "pi"
  enableSsh := "0"
  pubkeyOnlySsh := "0"
  stageList := "stage*"
  useQcow2 := "1"

/-- JavaScript falsiness of a string: only the empty string is falsy. -/
def jsFalsyStr (s : String) : Bool :=
  s.data.isEmpty

/-- JavaScript truthiness of an optional string property: `undefined` and the
empty string are falsy, every other string is truthy. -/
def truthyOpt : Option String → Bool
  | none => false
  | some s => !jsFalsyStr s

/-- The call `toLowerCase()` as the sources use it (ASCII release and
compression identifiers), written on the character list so that it reduces
structurally. -/
def jsToLower (s : String) : String :=
  String.mk (s.data.map Char.toLower)

/-- The test `/^[0-9]$/.test(s)` of line 85: exactly one character, and that
character a decimal digit. -/
def isSingleDigitTest (s : String) : Bool :=
  match s.data with
  | [c] => c.isDigit
  | _ => false

/-- Line 145 of `src/pi-gen-config.ts` reads `!stat.isDirectory` where
`isDirectory` is a method reference, not a call: a function object is always
truthy in JavaScript, so the expression the code evaluates is constantly
`true` whatever the stat result says.  The embedding keeps that observed
constant. -/
def isDirectoryAsMethodReference (_ : FileStat) : Bool :=
  true

/-- The split `s.split(sep)` of JavaScript for a single-character separator:
every occurrence separates, and empty pieces are kept. -/
def splitCharsOn (sep : Char) : List Char → List Char → List String
  | [], acc => [String.mk acc.reverse]
  | c :: rest, acc =>
    if c = sep then String.mk acc.reverse :: splitCharsOn sep rest []
    else splitCharsOn sep rest (c :: acc)

/-- The expression `stageList.split(' ')` used on lines 141 and 165. -/
def splitOnSpaceJs (s : String) : List String :=
  splitCharsOn ' ' s.data []

/-- Error message of the stage-list token check (lines 149-151). -/
def stageListTokenError : String :=
  "stage-list must contain valid pi-gen stage names \"stage[0-5]\" and/or valid directories"

/-- The loop over `config.stageList.split(' ')` of lines 141-154: a token
that is not a known stage name must `fs.stat` successfully; the inner
`if (!stat.isDirectory) throw` never fires (see
`isDirectoryAsMethodReference`), and a `stat` failure is caught and turned
into the stage-list validation error. -/
def validateStageListLoop (stat : String → Option FileStat) :
    List String → Except String Unit
  | [] => Except.ok ()
  | stageDir :: rest =>
    if !(piGenStages.contains stageDir) then
      match stat stageDir with
      | some st =>
        if !(isDirectoryAsMethodReference st) then Except.error stageListTokenError
        else validateStageListLoop stat rest
      | none => Except.error stageListTokenError
    else validateStageListLoop stat rest

/-- Error message of the Wi-Fi password check (lines 132-134). -/
def wpaPasswordError : String :=
  "wpa-password must be between 8 and 63 characters (or unset)"

/-- Error message of the compression level check (line 86). -/
def compressionLevelError : String :=
  "compression-level must be between 0 and 9"

/-- The function `validateConfig` of `src/pi-gen-config.ts` (lines 62-155).
The checks run in source order and stop at the first failure.  The dynamic
environment queries enter as the lists they produce (`supportedLocales` from
`cut -d ' ' -f1 /usr/share/i18n/SUPPORTED`, `supportedTimezones` from
`timedatectl list-timezones`), and `fs.stat` enters as a partial map from
paths to stat results, `none` modelling the call throwing. -/
def validateConfig (supportedLocales supportedTimezones : List String)
    (stat : String → Option FileStat) (config : PiGenConfig) :
    Except String Unit :=
  if jsFalsyStr config.imgName then
    Except.error "image-name must not be empty"
  else if !(["bullseye", "jessie", "stretch", "buster", "testing"].contains
      (jsToLower config.release)) then
    Except.error
      "release must be one of [\"bullseye\", \"jessie\", \"stretch\", \"buster\", \"testing\"]"
  else if !(["none", "zip", "gz", "xz"].contains
      (jsToLower config.deployCompression)) then
    Except.error "compression must be one of [\"none\", \"zip\", \"gz\", \"xz\"]"
  else if !(isSingleDigitTest config.compressionLevel) then
    Except.error compressionLevelError
  else if !(supportedLocales.contains config.localeDefault) then
    Except.error
      "locale is not included in the list of supported locales (retrieved from /usr/share/i18n/SUPPORTED)"
  else if jsFalsyStr config.targetHostname then
    Except.error "hostname must not be empty"
  else if jsFalsyStr config.keyboardKeymap then
    Except.error "keyboard-keymap must not be empty"
  else if jsFalsyStr config.keyboardLayout then
    Except.error "keyboard-layout must not be empty"
  else if !(supportedTimezones.contains config.timezoneDefault) then
    Except.error "timezone is not included in output of \"timedatectl list-timezones\""
  else if jsFalsyStr config.firstUserName then
    Except.error "username must not be empty"
  else if truthyOpt config.wpaPassword &&
      (decide ((config.wpaPassword.getD "").length < 8) ||
        decide ((config.wpaPassword.getD "").length > 63)) then
    Except.error wpaPasswordError
  else if jsFalsyStr config.stageList then
    Except.error "stage-list must not be empty"
  else
    validateStageListLoop stat (splitOnSpaceJs config.stageList)

/-- The function `camelCaseToSnakeCase` of `src/pi-gen-config.ts` (lines
157-159): `label.replace(/[A-Z]/g, letter => '_' + letter).toUpperCase()`,
written on the character list (only the ASCII property names of
`PiGenConfig` flow into it). -/
def camelCaseToSnakeCase (label : String) : String :=
  String.mk
    ((label.data.foldr
        (fun c acc => if c.isUpper then '_' :: c :: acc else c :: acc) []).map
      Char.toUpper)

/-- The list `Object.getOwnPropertyNames(config)` paired with the property
values, in the declaration order of the `PiGenConfig` interface (the order
in which the action populates its config objects). -/
def configFields (c : PiGenConfig) : List (String × Option String) :=
  [("imgName", some c.imgName),
   ("release", some c.release),
   ("deployCompression", some c.deployCompression),
   ("compressionLevel", some c.compressionLevel),
   ("localeDefault", some c.localeDefault),
   ("targetHostname", some c.targetHostname),
   ("keyboardKeymap", some c.keyboardKeymap),
   ("keyboardLayout", some c.keyboardLayout),
   ("timezoneDefault", some c.timezoneDefault),
   ("firstUserName", some c.firstUserName),
   ("firstUserPass", c.firstUserPass),
   ("wpaEssid", c.wpaEssid),
   ("wpaPassword", c.wpaPassword),
   ("wpaCountry", c.wpaCountry),
   ("enableSsh", some c.enableSsh),
   ("pubkeySshFirstUser", c.pubkeySshFirstUser),
   ("pubkeyOnlySsh", some c.pubkeyOnlySsh),
   ("stageList", some c.stageList),
   ("useQcow2", some c.useQcow2)]

/-- The line list built by `writeToFile` (lines 52-58): keep the truthy
properties and render each as `KEY="value"`. -/
def configLines (c : PiGenConfig) : List String :=
  ((configFields c).filter (fun p => truthyOpt p.2)).map
    (fun p => camelCaseToSnakeCase p.1 ++ "=\"" ++ p.2.getD "" ++ "\"")

/-- Concatenation with a separator, the semantics of JavaScript
`Array.prototype.join`. -/
def joinWith (sep : String) : List String → String
  | [] => ""
  | [x] => x
  | x :: rest => x ++ sep ++ joinWith sep rest

/-- The config file content `writeToFile` assembles: the lines joined with
newlines. -/
def configContent (c : PiGenConfig) : String :=
  joinWith "\n" (configLines c)

/-- The loop of `absolutizePiGenStages` (lines 169-175): each stage token is
passed to `fs.realpath`, prefixed with the pi-gen base directory when it is
a known stage name.  `realpath` is the filesystem's canonicalization map;
`none` models the call rejecting (for example on a missing path). -/
def absolutizeStagesLoop (realpath : String → Option String)
    (piGenDirectory : String) : List String → Option (List String)
  | [] => some []
  | stage :: rest =>
    match realpath
        (if piGenStages.contains stage then piGenDirectory ++ "/" ++ stage
         else stage) with
    | none => none
    | some r =>
      match absolutizeStagesLoop realpath piGenDirectory rest with
      | none => none
      | some rs => some (r :: rs)

/-- The function `absolutizePiGenStages` of `src/pi-gen-config.ts` (lines
161-178): split the stage list on single spaces, absolutize every token,
and rewrite `stageList` as the space-joined result. -/
def absolutizePiGenStages (realpath : String → Option String)
    (config : PiGenConfig) (piGenDirectory : String) : Option PiGenConfig :=
  match absolutizeStagesLoop realpath piGenDirectory
      (splitOnSpaceJs config.stageList) with
  | none => none
  | some stages => some {config with stageList := joinWith " " stages}

/-- The function `writeToFile` of `src/pi-gen-config.ts` (lines 46-60),
returned as the text written to the config file (the `fs.writeFile` call
itself is I/O).  Note that in the source `absolutizePiGenStages` mutates the
passed config object in place before serialization. -/
def writeToFile (realpath : String → Option String) (config : PiGenConfig)
    (piGenDirectory : String) : Option String :=
  match absolutizePiGenStages realpath config piGenDirectory with
  | none => none
  | some cfg => some (configContent cfg)

/-- Statement of the spec's key transformation, following its words: "each
internal uppercase letter is preceded by an underscore". -/
def insertUnderscores : List Char → List Char
  | [] => []
  | c :: rest =>
    (if c.isUpper then ['_', c] else [c]) ++ insertUnderscores rest

/-- Statement of the spec's key transformation, following its words: insert
an underscore before each uppercase letter, "then the whole name is
uppercased". -/
def upperSnakeSpec (name : String) : String :=
  String.mk ((insertUnderscores name.data).map Char.toUpper)

/-- Statement of the spec's serialization contract, following its words: one
`KEY="value"` line per non-empty field, in declaration order; empty or
absent fields yield no line at all. -/
def serializeLinesSpec (c : PiGenConfig) : List String :=
  (configFields c).foldr
    (fun p acc =>
      if truthyOpt p.2 then (upperSnakeSpec p.1 ++ "=\"" ++ p.2.getD "" ++ "\"") :: acc
      else acc)
    []

/-- Statement of the claim's stage-absolutization contract, following its
words: a token matching a known stage identifier is resolved relative to the
supplied build-directory path, any other token is resolved as given, and the
stage list is rewritten as the space-joined string of the results. -/
def absolutizeSpec (realpath : String → Option String) (c : PiGenConfig)
    (dir : String) : Option PiGenConfig :=
  match (splitOnSpaceJs c.stageList).mapM
      (fun tok => realpath (if tok ∈ piGenStages then dir ++ "/" ++ tok else tok)) with
  | none => none
  | some abs => some {c with stageList := joinWith " " abs}

/-- Membership in the JavaScript regex character class `\s` (the separator
of `split(/\s+/)` and the `\s*` of the build-log pattern). -/
def jsWhitespace (c : Char) : Bool :=
  [0x9, 0xa, 0xb, 0xc, 0xd, 0x20, 0xa0, 0x1680, 0x2028, 0x2029, 0x202f,
      0x205f, 0x3000, 0xfeff].contains c.toNat ||
    (decide (0x2000 ≤ c.toNat) && decide (c.toNat ≤ 0x200a))

/-- Worker for `splitWsRuns`.  The first argument says whether the scan is
inside a whitespace run (the piece before the run has already been
emitted); the last argument accumulates the current piece reversed. -/
def splitWsRunsGo : Bool → List Char → List Char → List String
  | false, [], acc => [String.mk acc.reverse]
  | true, [], _ => [""]
  | false, c :: rest, acc =>
    if jsWhitespace c then String.mk acc.reverse :: splitWsRunsGo true rest []
    else splitWsRunsGo false rest (c :: acc)
  | true, c :: rest, _ =>
    if jsWhitespace c then splitWsRunsGo true rest []
    else splitWsRunsGo false rest [c]

/-- The split `stageList.split(/\s+/)` used by `getStagesAsDockerMounts` and
`configureStagesImageExport`: pieces between maximal whitespace runs, with
an empty leading/trailing piece when the string starts/ends with whitespace,
matching the JavaScript semantics. -/
def splitWsRuns (s : String) : List String :=
  splitWsRunsGo false s.data []

/-- The call `path.basename` (POSIX): the part after the last slash, with
trailing slashes ignored. -/
def basename (p : String) : String :=
  String.mk
    (((p.data.reverse.dropWhile (fun c => c = '/')).takeWhile
        (fun c => !(c = '/'))).reverse)

/-- Observable effects of `PiGen.configureStagesImageExport`: the forced
removal `io.rmRF` of an `EXPORT_IMAGE` marker, and the `core.warning` about
a custom stage directory lacking the marker.  The method performs no other
filesystem operation; in particular, despite the warning's wording, it never
creates the marker file. -/
inductive ExportAction where
  | rmMarker (path : String)
  | warnMissingMarker (stageDir : String)
  deriving DecidableEq

/-- The loop body of `PiGen.configureStagesImageExport`: a stage-list entry
whose base name is a known stage identifier has its marker force-removed;
an entry with an unknown base name and no marker file only triggers a
warning. -/
def configureStagesImageExportLoop (fileExists : String → Bool) :
    List String → List ExportAction
  | [] => []
  | stageDir :: rest =>
    (if piGenStages.contains (basename stageDir) then
        [ExportAction.rmMarker (stageDir ++ "/EXPORT_IMAGE")]
      else if !fileExists (stageDir ++ "/EXPORT_IMAGE") then
        [ExportAction.warnMissingMarker stageDir]
      else []) ++ configureStagesImageExportLoop fileExists rest

/-- The method `PiGen.configureStagesImageExport` of `src/pi-gen.ts`:
iterate over `this.config.stageList.split(/\s+/)`.  `fileExists` is
`fs.existsSync`. -/
def configureStagesImageExport (fileExists : String → Bool)
    (stageList : String) : List ExportAction :=
  configureStagesImageExportLoop fileExists (splitWsRuns stageList)

/-- The two required files of `PiGen.validatePigenDirectory`. -/
def requiredFiles : List String :=
  ["build-docker.sh", "Dockerfile"]

/-- The method `PiGen.validatePigenDirectory` of `src/pi-gen.ts`: `stat` is
`fs.statSync` and `readdir` is `fs.readdirSync` with `withFileTypes`, with
`none` modelling the call throwing (in which case the exception escapes the
method, hence the `Option Bool` result). -/
def validatePigenDirectory (stat : String → Option FileStat)
    (readdir : String → Option (List DirEntry)) (piGenDirectory : String) :
    Option Bool :=
  match stat piGenDirectory with
  | none => none
  | some dirStat =>
    if !dirStat.isDirectory then some false
    else
      match readdir piGenDirectory with
      | none => none
      | some piGenDirContent =>
        let existingFiles :=
          (piGenDirContent.filter (fun e => e.isFile)).map (fun e => e.name)
        let existingDirectories :=
          (piGenDirContent.filter (fun e => e.isDirectory)).map (fun e => e.name)
        if !(requiredFiles.all (fun file => existingFiles.contains file)) then
          some false
        else if !(piGenStages.all (fun dir => existingDirectories.contains dir)) then
          some false
        else some true

/-- State of a successfully constructed `PiGen` instance. -/
structure PiGen where
  piGenDirectory : String
  config : PiGenConfig
  configFilePath : String
  deriving DecidableEq

/-- The `PiGen` constructor: it throws when `validatePigenDirectory` reports
an invalid directory (with the message of line 87), and also when one of the
underlying filesystem calls (`statSync`, `readdirSync`, `realpathSync`)
throws; otherwise it records `realpathSync(piGenDirectory) + "/config"` as
the config file path. -/
def mkPiGen (stat : String → Option FileStat)
    (readdir : String → Option (List DirEntry))
    (realpath : String → Option String) (piGenDirectory : String)
    (config : PiGenConfig) : Except String PiGen :=
  match validatePigenDirectory stat readdir piGenDirectory with
  | none => Except.error "filesystem call threw in validatePigenDirectory"
  | some false =>
    Except.error ("pi-gen directory at " ++ piGenDirectory ++ " is invalid")
  | some true =>
    match realpath piGenDirectory with
    | none => Except.error "realpathSync threw"
    | some rp => Except.ok ⟨piGenDirectory, config, rp ++ "/config"⟩

/-- Statement of the claim's directory-shape condition, following its words:
the target is a directory that directly contains the two required files and
one subdirectory per known stage identifier. -/
def validPiGenDirShape (stat : String → Option FileStat)
    (readdir : String → Option (List DirEntry)) (dir : String) : Prop :=
  ∃ st entries,
    stat dir = some st ∧ st.isDirectory = true ∧ readdir dir = some entries ∧
      (∀ f ∈ requiredFiles, ∃ e ∈ entries, e.isFile = true ∧ e.name = f) ∧
      (∀ s ∈ piGenStages, ∃ e ∈ entries, e.isDirectory = true ∧ e.name = s)

/-- The method `PiGen.getStagesAsDockerMounts`: every entry of the
(absolutized) stage list is passed through `fs.realpathSync` and rendered as
a `-v path:path` Docker bind-mount flag; `none` models `realpathSync`
throwing. -/
def getStagesAsDockerMounts (realpath : String → Option String)
    (config : PiGenConfig) : Option String :=
  match (splitWsRuns config.stageList).mapM realpath with
  | none => none
  | some paths =>
    some (joinWith " " (paths.map (fun p => "-v " ++ p ++ ":" ++ p)))

/-- Invocation issued to `exec.getExecOutput` by `PiGen.build`. -/
structure ExecCall where
  commandLine : String
  args : List String
  cwd : String
  envVars : List (String × String)
  deriving DecidableEq

/-- Captured result of the external build subprocess: exit code and the
collected output streams, as `exec.getExecOutput` reports them. -/
structure ExecOutput where
  exitCode : Int
  stdout : String
  stderr : String
  deriving DecidableEq

/-- The method `PiGen.build` of `src/pi-gen.ts`.  `runExec` abstracts the
external execution primitive `exec.getExecOutput` (an external collaborator
per the spec): it maps the issued call to the process's captured output.
In the source, `writeToFile` mutates the shared `this.config` object when it
absolutizes the stage list, so the later steps run on the absolutized
config; the embedding threads that config accordingly.  The result carries
the export-preparation actions, the content written to the config file, and
the exec output, returned verbatim. -/
def build (runExec : ExecCall → ExecOutput) (realpath : String → Option String)
    (fileExists : String → Bool) (pg : PiGen) :
    Except String (List ExportAction × String × ExecOutput) :=
  match absolutizePiGenStages realpath pg.config pg.piGenDirectory with
  | none => Except.error "fs.realpath threw while writing the config file"
  | some cfg =>
    let actions := configureStagesImageExport fileExists cfg.stageList
    match getStagesAsDockerMounts realpath cfg with
    | none => Except.error "realpathSync threw while computing docker mounts"
    | some dockerOpts =>
      Except.ok (actions, configContent cfg,
        runExec
          ⟨"\"./build-docker.sh\"", ["-c", pg.configFilePath],
            pg.piGenDirectory, [("PIGEN_DOCKER_OPTS", dockerOpts)]⟩)

/-- Remainders possible after matching one repetition of the regex group
`(?:\d\d:?)` at the front of a character list: two digits followed by an
optional colon (both the colon-consuming and the colon-skipping remainder
are candidates, mirroring the regex engine's backtracking). -/
def twoDigitColonOpt : List Char → List (List Char)
  | a :: b :: rest =>
    if a.isDigit && b.isDigit then
      match rest with
      | ':' :: r2 => [rest, r2]
      | _ => [rest]
    else []
  | _ => []

/-- Test whether the bracketed timestamp body of the build-log pattern (the
group repeated three times, then a closing bracket) matches at the front of
the list. -/
def timestampBracketTail (l : List Char) : Bool :=
  (((twoDigitColonOpt l).flatMap twoDigitColonOpt).flatMap twoDigitColonOpt).any
    (fun r => match r with
      | ']' :: _ => true
      | _ => false)

/-- Test whether `PiGen.piGenBuildLogPattern`, the regex
`^\s*\[(?:\d\d:?)(?:\d\d:?)(?:\d\d:?)\].*` (written `(?:\d{2}:?){3}` in the
source), matches somewhere in a newline-free line: leading whitespace, an
opening bracket, the timestamp triple, a closing bracket.  Because the
listener lines contain no newline, the multiline anchor `^` can only match
at position 0. -/
def piGenBuildLogCoreMatch (line : String) : Bool :=
  match line.data.dropWhile jsWhitespace with
  | '[' :: rest => timestampBracketTail rest
  | _ => false

/-- The call `piGenBuildLogPattern.test(line)` together with its effect on
the regex object.  The source regex carries the `g` flag, so `test` is
stateful: it searches only from `lastIndex` on, sets `lastIndex` to the end
of a successful match (the `.*` extends it to the end of the line), and
resets it to 0 on failure.  For the newline-free lines the exec line
listeners deliver, the anchor `^` matches only at position 0, so any
positive `lastIndex` makes the search fail and reset. -/
def piGenBuildLogTest (lastIndex : Nat) (line : String) : Bool × Nat :=
  if lastIndex = 0 then
    if piGenBuildLogCoreMatch line then (true, line.length) else (false, 0)
  else (false, 0)

/-- Destination channels of `PiGen.logOutput`: `core.info` for stdout lines
and `core.error` for stderr lines. -/
inductive LogStream where
  | info
  | error
  deriving DecidableEq

/-- The method `PiGen.logOutput` of `src/pi-gen.ts`: surface the line on its
channel when `verbose || this.piGenBuildLogPattern.test(line)`.  The `||`
short-circuits, so with `verbose` set the regex state is untouched.  Returns
the surfaced event (if any) and the regex's new `lastIndex`. -/
def logOutput (lastIndex : Nat) (line : String) (verbose : Bool)
    (stream : LogStream) : Option (LogStream × String) × Nat :=
  if verbose then (some (stream, line), lastIndex)
  else
    match piGenBuildLogTest lastIndex line with
    | (true, li) => (some (stream, line), li)
    | (false, li) => (none, li)

/-- Delivery of a sequence of build-output lines through `PiGen.logOutput`,
threading the shared regex state, and collecting the surfaced events. -/
def logOutputAll (verbose : Bool) (lastIndex : Nat) :
    List (LogStream × String) → List (LogStream × String)
  | [] => []
  | (stream, line) :: rest =>
    match logOutput lastIndex line verbose stream with
    | (some e, li) => e :: logOutputAll verbose li rest
    | (none, li) => logOutputAll verbose li rest

/-! Concrete environments used to evaluate the embedded code. -/

/-- Locale list of a demonstration host. -/
def demoLocales : List String := ["en_GB.UTF-8"]

/-- Timezone list of a demonstration host. -/
def demoTimezones : List String := ["Europe/London"]

/-- Demonstration `fs.stat`: the path `customfile` exists and is a regular
file (not a directory); every other path is missing. -/
def demoStat : String → Option FileStat :=
  fun p => if p == "customfile" then some ⟨false⟩ else none

/-- Demonstration config: the defaults with the concrete stage list
`stage0`, valid on the demonstration host. -/
def demoConfig : PiGenConfig :=
  {DEFAULT_CONFIG with stageList := "stage0"}

/-! Theorems settling the claims. -/

/-- C1: the claim says a stage-list token that is neither a known stage
identifier nor an existing directory makes `validateConfig` throw.  The code
disagrees: for the token `customfile`, which exists but is a regular file
(`isDirectory = false`), validation succeeds, because line 145 tests the
method reference `stat.isDirectory` without calling it — a function object
is always truthy — so the directory check never fires and mere existence
suffices.  This contradicts the code's own error message ("... and/or valid
directories"). -/
theorem c1_existing_file_accepted_as_stage :
    demoStat "customfile" = some ⟨false⟩ ∧
      validateConfig demoLocales demoTimezones demoStat
        {DEFAULT_CONFIG with stageList := "customfile"} = Except.ok () :=
  ⟨rfl, rfl⟩

/-- C8: with every other field of the configuration valid, `validateConfig`
passes the compression level exactly when it is a single decimal digit, and
any other string fails with the error naming the compression-level
constraint.  In particular each of "0" through "9" is accepted, while "10"
and "a" are rejected. -/
theorem c8_compression_level_single_digit (s : String) :
    validateConfig demoLocales demoTimezones demoStat
        {demoConfig with compressionLevel := s} =
      (if isSingleDigitTest s then Except.ok ()
       else Except.error compressionLevelError) := by
  by_cases h : isSingleDigitTest s
  · simp only [h, if_true]
    show validateConfig demoLocales demoTimezones demoStat
        {demoConfig with compressionLevel := s} = Except.ok ()
    unfold validateConfig
    simp only [h]
    rfl
  · simp only [h, if_false]
    unfold validateConfig
    simp only [Bool.not_eq_true] at h
    simp only [h]
    rfl

/-- C9 counterexample: the claim states that for every configuration whose
Wi-Fi password is present, validation accepts it exactly when its length
lies in 8..63.  The password `""` is present (`some ""`), its length 0 lies
outside that range, yet `validateConfig` accepts the configuration: the
JavaScript guard `config.wpaPassword && ...` treats the empty string as
falsy and skips the length check. -/
theorem c9_empty_present_password_accepted :
    ({demoConfig with wpaPassword := some ""} : PiGenConfig).wpaPassword = some "" ∧
      ("" : String).length = 0 ∧
      validateConfig demoLocales demoTimezones demoStat
        {demoConfig with wpaPassword := some ""} = Except.ok () :=
  ⟨rfl, rfl, rfl⟩

/-- C9 (amended): with every other field valid, a PRESENT Wi-Fi password is
accepted exactly when it is empty or its length lies between 8 and 63
inclusive — so length 7 is rejected, lengths 8 and 63 are accepted, length
64 is rejected — and an absent password passes the check. -/
theorem c9_wpa_password_length_check (pw : String) :
    validateConfig demoLocales demoTimezones demoStat
        {demoConfig with wpaPassword := some pw} =
      (if pw.length = 0 ∨ (8 ≤ pw.length ∧ pw.length ≤ 63) then Except.ok ()
       else Except.error wpaPasswordError) ∧
      validateConfig demoLocales demoTimezones demoStat demoConfig =
        Except.ok () := by
  refine ⟨?_, rfl⟩
  have key : ∀ w : Option String,
      validateConfig demoLocales demoTimezones demoStat
          {demoConfig with wpaPassword := w} =
        (if (truthyOpt w &&
              (decide ((w.getD "").length < 8) ||
                decide ((w.getD "").length > 63))) = true then
          Except.error wpaPasswordError
         else Except.ok ()) := by
    intro w
    unfold validateConfig
    cases hc : truthyOpt w &&
        (decide ((w.getD "").length < 8) || decide ((w.getD "").length > 63)) with
    | true => simp only [hc]; rfl
    | false => simp only [hc]; rfl
  rw [key (some pw)]
  have hlen : pw.length = pw.data.length := rfl
  by_cases h0 : pw.length = 0
  · have hemp : pw.data.isEmpty = true :=
      List.isEmpty_iff.mpr (List.length_eq_zero.mp (hlen ▸ h0))
    simp [truthyOpt, jsFalsyStr, hemp, h0]
  · have hne : pw.data.isEmpty = false := by
      rcases Bool.eq_false_or_eq_true pw.data.isEmpty with h | h
      · exact absurd (hlen ▸ List.length_eq_zero.mpr (List.isEmpty_iff.mp h)) h0
      · exact h
    simp only [truthyOpt, jsFalsyStr, hne, Bool.not_false, Bool.true_and,
      Option.getD_some]
    by_cases h1 : pw.length < 8
    · have hno : ¬(pw.length = 0 ∨ (8 ≤ pw.length ∧ pw.length ≤ 63)) := by omega
      simp [h1, hno]
    · by_cases h2 : pw.length > 63
      · have hno : ¬(pw.length = 0 ∨ (8 ≤ pw.length ∧ pw.length ≤ 63)) := by omega
        simp [h1, h2, hno]
      · have hyes : pw.length = 0 ∨ (8 ≤ pw.length ∧ pw.length ≤ 63) := by omega
        simp [h1, h2, hyes]

/-- C10: a configuration whose Wi-Fi password is present but empty passes
the password check: `validateConfig` treats `some ""` exactly like an
absent password (the results agree for every configuration and every
environment), and on the demonstration host the configuration is accepted
outright. -/
theorem c10_empty_password_like_absent (locales timezones : List String)
    (stat : String → Option FileStat) (cfg : PiGenConfig) :
    validateConfig locales timezones stat {cfg with wpaPassword := some ""} =
        validateConfig locales timezones stat {cfg with wpaPassword := none} ∧
      validateConfig demoLocales demoTimezones demoStat
        {demoConfig with wpaPassword := some ""} = Except.ok () :=
  ⟨rfl, rfl⟩

/-- Helper: the underscore-insertion `foldr` of `camelCaseToSnakeCase`
computes the spec's `insertUnderscores`. -/
theorem foldr_eq_insertUnderscores (l : List Char) :
    l.foldr (fun c acc => if c.isUpper then '_' :: c :: acc else c :: acc) [] =
      insertUnderscores l := by
  induction l with
  | nil => rfl
  | cons c rest ih =>
    by_cases h : c.isUpper <;> simp [insertUnderscores, ih, h]

/-- Helper: the source's key transformation agrees with the spec's
upper-snake-case transformation on every string. -/
theorem camelCase_eq_upperSnakeSpec (s : String) :
    camelCaseToSnakeCase s = upperSnakeSpec s := by
  unfold camelCaseToSnakeCase upperSnakeSpec
  rw [foldr_eq_insertUnderscores]

/-- Helper: filtering then mapping is the one-pass `foldr` used by the
spec-side serialization. -/
theorem filter_map_eq_foldr {α β : Type} (p : α → Bool) (f : α → β)
    (l : List α) :
    (l.filter p).map f =
      l.foldr (fun x acc => if p x then f x :: acc else acc) [] := by
  induction l with
  | nil => rfl
  | cons x xs ih =>
    by_cases h : p x <;> simp [List.filter_cons, h, ih]

/-- C2: the lines `writeToFile` serializes are exactly the spec's: one
`KEY="value"` line per field whose value is non-empty, in the fields'
declaration order, with `KEY` the upper-snake-case form of the field name
(underscore before each internal uppercase letter, then all uppercased);
empty or absent fields contribute no line, so the number of lines equals the
number of non-empty fields.  In particular `firstUserName` becomes
`FIRST_USER_NAME`. -/
theorem c2_serialization_matches_spec (c : PiGenConfig) :
    configLines c = serializeLinesSpec c ∧
      (configLines c).length =
        ((configFields c).filter (fun p => truthyOpt p.2)).length ∧
      camelCaseToSnakeCase "firstUserName" = "FIRST_USER_NAME" := by
  refine ⟨?_, by simp [configLines], by rfl⟩
  unfold configLines serializeLinesSpec
  rw [filter_map_eq_foldr]
  simp only [camelCase_eq_upperSnakeSpec]

/-- Helper: the absolutization loop is the per-token resolution map the
claim describes. -/
theorem absolutizeStagesLoop_eq_mapM (realpath : String → Option String)
    (dir : String) (l : List String) :
    absolutizeStagesLoop realpath dir l =
      l.mapM (fun tok =>
        realpath (if tok ∈ piGenStages then dir ++ "/" ++ tok else tok)) := by
  have hfun : (fun tok =>
        realpath (if tok ∈ piGenStages then dir ++ "/" ++ tok else tok)) =
      (fun tok =>
        realpath (if piGenStages.contains tok then dir ++ "/" ++ tok else tok)) := by
    funext t
    by_cases h : t ∈ piGenStages <;> simp [List.elem_eq_mem, h]
  rw [hfun]
  induction l with
  | nil => rfl
  | cons tok rest ih =>
    rw [List.mapM_cons, ← ih]
    simp only [absolutizeStagesLoop]
    cases hrp : realpath (if piGenStages.contains tok then dir ++ "/" ++ tok else tok) with
    | none => simp [hrp]
    | some r =>
      cases habs : absolutizeStagesLoop realpath dir rest <;> simp [hrp, habs]

/-- C3: before serialization, `absolutizePiGenStages` performs exactly the
spec's absolutization — each token of the stage list is resolved through
`realpath`, prefixed with the supplied build-directory path when it is a
known stage identifier and taken as given otherwise — and when it succeeds,
the only field it changes is `stageList`, which it rewrites in place as the
space-joined string of the resolved absolute paths. -/
theorem c3_absolutize_matches_spec (realpath : String → Option String)
    (c : PiGenConfig) (dir : String) :
    absolutizePiGenStages realpath c dir = absolutizeSpec realpath c dir ∧
      ∀ c', absolutizePiGenStages realpath c dir = some c' →
        c' = {c with stageList := c'.stageList} ∧
          ∃ abs,
            absolutizeStagesLoop realpath dir (splitOnSpaceJs c.stageList) =
                some abs ∧
              c'.stageList = joinWith " " abs := by
  constructor
  · unfold absolutizePiGenStages absolutizeSpec
    rw [absolutizeStagesLoop_eq_mapM]
  · intro c' h
    unfold absolutizePiGenStages at h
    cases habs : absolutizeStagesLoop realpath dir (splitOnSpaceJs c.stageList) with
    | none => rw [habs] at h; exact absurd h (by simp)
    | some abs =>
      rw [habs] at h
      simp only [Option.some.injEq] at h
      subst h
      exact ⟨rfl, abs, rfl, rfl⟩

/-- Configuration used to exercise the absolutization: a known stage name
mixed with a custom directory path. -/
def c3cfg : PiGenConfig :=
  {DEFAULT_CONFIG with stageList := "stage0 /custom"}

/-- The configuration after absolutization against the identity `realpath`
and base directory `/pi`. -/
def c3cfgAbs : PiGenConfig :=
  {DEFAULT_CONFIG with stageList := "/pi/stage0 /custom"}

/-- Witness for C3 at a concrete input: the known stage resolves under the
base directory, the custom path resolves as given, and only `stageList`
changes. -/
theorem c3_absolutize_witness :
    c3cfgAbs = {c3cfg with stageList := c3cfgAbs.stageList} ∧
      ∃ abs,
        absolutizeStagesLoop (fun s => some s) "/pi"
            (splitOnSpaceJs c3cfg.stageList) = some abs ∧
          c3cfgAbs.stageList = joinWith " " abs :=
  (c3_absolutize_matches_spec (fun s => some s) c3cfg "/pi").2 c3cfgAbs rfl

/-- C4: the claim says a build-output line is surfaced if and only if it
matches the timestamp pattern or verbose is set.  The code disagrees: the
regex is constructed with the `g` flag, and `RegExp.test` on a global regex
is stateful through `lastIndex`, so of two consecutive matching lines the
second is swallowed when verbose is unset.  Here both lines match the
pattern, yet only the first is surfaced; with verbose set both appear. -/
theorem c4_global_regex_suppresses_matching_line :
    piGenBuildLogCoreMatch "[10:00:01] second" = true ∧
      logOutputAll false 0
          [(LogStream.info, "[10:00:00] first"),
           (LogStream.info, "[10:00:01] second")] =
        [(LogStream.info, "[10:00:00] first")] ∧
      logOutputAll true 0
          [(LogStream.info, "[10:00:00] first"),
           (LogStream.info, "[10:00:01] second")] =
        [(LogStream.info, "[10:00:00] first"),
         (LogStream.info, "[10:00:01] second")] :=
  ⟨rfl, rfl, rfl⟩

/-- C5: when the preliminary filesystem steps succeed, `build` returns
`Except.ok` carrying the exec result of the single issued invocation
verbatim — whatever exit code and captured output (stderr included) the
subprocess produced — so a non-zero exit code is reported through the
result object and the invoker throws nothing and never retries or
reinterprets the code. -/
theorem c5_build_returns_exec_output_verbatim
    (runExec : ExecCall → ExecOutput) (realpath : String → Option String)
    (fileExists : String → Bool) (pg : PiGen) (cfg : PiGenConfig)
    (habs : absolutizePiGenStages realpath pg.config pg.piGenDirectory = some cfg)
    (d : String) (hd : getStagesAsDockerMounts realpath cfg = some d) :
    build runExec realpath fileExists pg =
      Except.ok (configureStagesImageExport fileExists cfg.stageList,
        configContent cfg,
        runExec
          ⟨"\"./build-docker.sh\"", ["-c", pg.configFilePath],
            pg.piGenDirectory, [("PIGEN_DOCKER_OPTS", d)]⟩) := by
  unfold build
  rw [habs]
  simp only [hd]

/-- The `PiGen` instance used to exercise `build`. -/
def c5pg : PiGen :=
  ⟨"/pi-gen", {DEFAULT_CONFIG with stageList := "stage0"}, "/pi-gen/config"⟩

/-- An external build subprocess that fails: exit code 1 with captured
stderr. -/
def c5exec : ExecCall → ExecOutput :=
  fun _ => ⟨1, "out", "boom"⟩

/-- Witness for C5 at a concrete input: the subprocess exits with code 1 and
stderr "boom", and `build` returns that result object unchanged instead of
throwing. -/
theorem c5_build_witness :
    build c5exec (fun s => some s) (fun _ => true) c5pg =
      Except.ok ([ExportAction.rmMarker "/pi-gen/stage0/EXPORT_IMAGE"],
        configContent ({DEFAULT_CONFIG with stageList := "/pi-gen/stage0"} : PiGenConfig),
        ⟨1, "out", "boom"⟩) :=
  c5_build_returns_exec_output_verbatim c5exec (fun s => some s) (fun _ => true)
    c5pg ({DEFAULT_CONFIG with stageList := "/pi-gen/stage0"} : PiGenConfig) rfl
    "-v /pi-gen/stage0:/pi-gen/stage0" rfl

/-- Helper: the `every`/`includes` test of `validatePigenDirectory` over the
names of the type-filtered entries says exactly that each required name is
carried by an entry of the right type. -/
theorem all_contains_iff (entries : List DirEntry) (pred : DirEntry → Bool)
    (req : List String) :
    (req.all fun x =>
        ((entries.filter pred).map (fun e => e.name)).contains x) = true ↔
      ∀ x ∈ req, ∃ e ∈ entries, pred e = true ∧ e.name = x := by
  simp only [List.all_eq_true, List.elem_eq_mem, List.mem_map, List.mem_filter,
    decide_eq_true_eq]
  constructor
  · intro h x hx
    obtain ⟨e, ⟨he, hp⟩, hn⟩ := h x hx
    exact ⟨e, he, hp, hn⟩
  · intro h x hx
    obtain ⟨e, he, hp, hn⟩ := h x hx
    exact ⟨e, ⟨he, hp⟩, hn⟩

/-- C6: constructing the `PiGen` invoker succeeds exactly when the target
path is a directory directly containing the two required files
(`build-docker.sh` and `Dockerfile`) as files and one directory per known
stage identifier; otherwise construction throws, so an invoker — and with
it any config write or subprocess call of `build` — never exists for an
invalid directory.  The hypothesis states the filesystem consistency that
`realpathSync` succeeds on a path `statSync` succeeded on. -/
theorem c6_construction_iff_directory_shape (stat : String → Option FileStat)
    (readdir : String → Option (List DirEntry))
    (realpath : String → Option String) (dir : String) (cfg : PiGenConfig)
    (hrp : ∀ st, stat dir = some st → (realpath dir).isSome) :
    (∃ pg, mkPiGen stat readdir realpath dir cfg = Except.ok pg) ↔
      validPiGenDirShape stat readdir dir := by
  constructor
  · rintro ⟨pg, hpg⟩
    unfold mkPiGen at hpg
    cases hv : validatePigenDirectory stat readdir dir with
    | none => rw [hv] at hpg; simp at hpg
    | some b =>
      cases b with
      | false => rw [hv] at hpg; simp at hpg
      | true =>
        unfold validatePigenDirectory at hv
        cases hstat : stat dir with
        | none => rw [hstat] at hv; simp at hv
        | some st =>
          rw [hstat] at hv
          dsimp only at hv
          cases hdir : st.isDirectory with
          | false => rw [hdir] at hv; simp at hv
          | true =>
            rw [hdir] at hv
            cases hrd : readdir dir with
            | none => rw [hrd] at hv; simp at hv
            | some entries =>
              rw [hrd] at hv
              dsimp only at hv
              by_cases hA : (requiredFiles.all fun file =>
                  ((entries.filter (fun e => e.isFile)).map
                      (fun e => e.name)).contains file)
              · by_cases hB : (piGenStages.all fun d =>
                    ((entries.filter (fun e => e.isDirectory)).map
                        (fun e => e.name)).contains d)
                · exact ⟨st, entries, hstat, hdir, hrd,
                    (all_contains_iff entries (fun e => e.isFile)
                        requiredFiles).mp hA,
                    (all_contains_iff entries (fun e => e.isDirectory)
                        piGenStages).mp hB⟩
                · rw [Bool.not_eq_true] at hB
                  rw [hA, hB] at hv
                  simp at hv
              · rw [Bool.not_eq_true] at hA
                rw [hA] at hv
                simp at hv
  · rintro ⟨st, entries, hstat, hdir, hrd, hfiles, hdirs⟩
    have hval : validatePigenDirectory stat readdir dir = some true := by
      unfold validatePigenDirectory
      rw [hstat]
      dsimp only
      rw [hdir, hrd]
      dsimp only
      rw [(all_contains_iff entries (fun e => e.isFile) requiredFiles).mpr hfiles,
        (all_contains_iff entries (fun e => e.isDirectory) piGenStages).mpr hdirs]
      rfl
    obtain ⟨rp, hrpv⟩ := Option.isSome_iff_exists.mp (hrp st hstat)
    refine ⟨⟨dir, cfg, rp ++ "/config"⟩, ?_⟩
    unfold mkPiGen
    rw [hval, hrpv]

/-- Directory listing of a well-formed pi-gen checkout: the two required
files and the six stage directories. -/
def demoPiGenEntries : List DirEntry :=
  [⟨"build-docker.sh", true, false⟩, ⟨"Dockerfile", true, false⟩,
   ⟨"stage0", false, true⟩, ⟨"stage1", false, true⟩, ⟨"stage2", false, true⟩,
   ⟨"stage3", false, true⟩, ⟨"stage4", false, true⟩, ⟨"stage5", false, true⟩]

/-- Demonstration `fs.statSync`: only `/pi-gen` exists, and it is a
directory. -/
def demoDirStat : String → Option FileStat :=
  fun p => if p == "/pi-gen" then some ⟨true⟩ else none

/-- Demonstration `fs.readdirSync` for the well-formed checkout. -/
def demoReaddir : String → Option (List DirEntry) :=
  fun p => if p == "/pi-gen" then some demoPiGenEntries else none

/-- Witness for C6 at a concrete input: against a well-formed pi-gen
directory, construction succeeds. -/
theorem c6_construction_witness :
    ∃ pg, mkPiGen demoDirStat demoReaddir (fun s => some s) "/pi-gen"
        DEFAULT_CONFIG = Except.ok pg :=
  (c6_construction_iff_directory_shape demoDirStat demoReaddir (fun s => some s)
      "/pi-gen" DEFAULT_CONFIG (fun _ _ => rfl)).mpr
    ⟨⟨true⟩, demoPiGenEntries, rfl, rfl, rfl, by decide, by decide⟩

/-- Helper: a stage-list entry whose base name is a known stage identifier
contributes the forced removal of its marker. -/
theorem exportLoop_rm_of_known (fileExists : String → Bool) (l : List String)
    (tok : String) (h : tok ∈ l)
    (hk : piGenStages.contains (basename tok) = true) :
    ExportAction.rmMarker (tok ++ "/EXPORT_IMAGE") ∈
      configureStagesImageExportLoop fileExists l := by
  induction l with
  | nil => cases h
  | cons a rest ih =>
    rcases List.mem_cons.mp h with rfl | hmem
    · have hk' : basename tok ∈ piGenStages := List.mem_of_elem_eq_true hk
      simp [configureStagesImageExportLoop, hk']
    · simp [configureStagesImageExportLoop, ih hmem]

/-- Helper: a stage-list entry with an unknown base name and no marker file
contributes the warning. -/
theorem exportLoop_warn_of_custom (fileExists : String → Bool)
    (l : List String) (tok : String) (h : tok ∈ l)
    (hk : piGenStages.contains (basename tok) = false)
    (he : fileExists (tok ++ "/EXPORT_IMAGE") = false) :
    ExportAction.warnMissingMarker tok ∈
      configureStagesImageExportLoop fileExists l := by
  induction l with
  | nil => cases h
  | cons a rest ih =>
    rcases List.mem_cons.mp h with rfl | hmem
    · have hk' : basename tok ∉ piGenStages := by simpa using hk
      simp [configureStagesImageExportLoop, hk', he]
    · simp [configureStagesImageExportLoop, ih hmem]

/-- Helper: every removal the loop performs targets the marker of an entry
whose base name is a known stage identifier — custom stage directories are
never touched. -/
theorem exportLoop_rm_only_known (fileExists : String → Bool)
    (l : List String) (p : String)
    (h : ExportAction.rmMarker p ∈ configureStagesImageExportLoop fileExists l) :
    ∃ tok ∈ l, piGenStages.contains (basename tok) = true ∧
      p = tok ++ "/EXPORT_IMAGE" := by
  induction l with
  | nil => cases h
  | cons a rest ih =>
    simp only [configureStagesImageExportLoop, List.mem_append] at h
    rcases h with h | h
    · by_cases hk : piGenStages.contains (basename a)
      · simp only [hk, if_true, List.mem_singleton,
          ExportAction.rmMarker.injEq] at h
        exact ⟨a, List.mem_cons_self a rest, hk, h⟩
      · rw [Bool.not_eq_true] at hk
        simp only [hk] at h
        by_cases he : fileExists (a ++ "/EXPORT_IMAGE")
        · simp [he] at h
        · rw [Bool.not_eq_true] at he
          simp [he] at h
    · obtain ⟨tok, hmem, hkk, hp⟩ := ih h
      exact ⟨tok, List.mem_cons_of_mem a hmem, hkk, hp⟩

/-- C7: during stage export preparation, every whitespace-delimited
stage-list entry whose base name is a known stage identifier has the
`EXPORT_IMAGE` marker inside it force-removed; an entry whose base name is
unknown and that lacks the marker file only gets a warning; and every
removal performed targets a known-stage entry, so the contents of custom
stage directories are never modified (the embedding records every
filesystem effect of the method, and marker creation is not among them). -/
theorem c7_stage_export_preparation (fileExists : String → Bool)
    (stageList : String) :
    (∀ tok ∈ splitWsRuns stageList,
        piGenStages.contains (basename tok) = true →
          ExportAction.rmMarker (tok ++ "/EXPORT_IMAGE") ∈
            configureStagesImageExport fileExists stageList) ∧
      (∀ tok ∈ splitWsRuns stageList,
        piGenStages.contains (basename tok) = false →
          fileExists (tok ++ "/EXPORT_IMAGE") = false →
            ExportAction.warnMissingMarker tok ∈
              configureStagesImageExport fileExists stageList) ∧
      (∀ p, ExportAction.rmMarker p ∈
            configureStagesImageExport fileExists stageList →
        ∃ tok ∈ splitWsRuns stageList,
          piGenStages.contains (basename tok) = true ∧
            p = tok ++ "/EXPORT_IMAGE") :=
  ⟨fun tok h hk => exportLoop_rm_of_known fileExists _ tok h hk,
   fun tok h hk he => exportLoop_warn_of_custom fileExists _ tok h hk he,
   fun p h => exportLoop_rm_only_known fileExists _ p h⟩

/-- Witness for C7 at a concrete input: for the stage list
`stage0 /work/custom` with no marker files on disk, the known stage's marker
is removed and the custom stage only draws the warning. -/
theorem c7_stage_export_witness :
    ExportAction.rmMarker "stage0/EXPORT_IMAGE" ∈
        configureStagesImageExport (fun _ => false) "stage0 /work/custom" ∧
      ExportAction.warnMissingMarker "/work/custom" ∈
        configureStagesImageExport (fun _ => false) "stage0 /work/custom" :=
  ⟨(c7_stage_export_preparation (fun _ => false) "stage0 /work/custom").1
      "stage0" (by decide) (by decide),
   (c7_stage_export_preparation (fun _ => false) "stage0 /work/custom").2.1
      "/work/custom" (by decide) (by decide) rfl⟩

end PiGenAction
